import Mathlib

/-!
Shallow embedding of the interaction-response state machine of
`discord_slash/context.py` (classes `InteractionContext`, `SlashContext`,
`ComponentContext`, `MenuContext`) and of the confirmation-prompt helper.

Conventions of the embedding:
* Python `None`-able parameters become `Option`; Python truthiness of an
  optional object is `Option.isSome`, of an optional list it is
  "present and non-empty", of an optional float it is "present and non-zero".
* Raising an exception becomes returning an error value; every operation
  returns the (possibly unchanged) context state together with the ordered
  list of outbound HTTP requests it issued, the warnings it logged, and the
  delayed-delete tasks it scheduled.
* Values whose content comes from outside this repository (serialized embed
  dicts, file objects, allowed-mentions objects, HTTP response bodies) are
  represented abstractly: they are carried around, never inspected, exactly
  as the source carries them.
* Dynamic dispatch of `self.defer` inside the inherited `send` body is made
  explicit through a `CtxKind` parameter.
-/

namespace DiscordSlash

/-- A serialized embed dict: the result of `discord.Embed.to_dict()`. The
embedding never inspects it, so it is an abstract tag. -/
abbrev EmbedDict := Nat

/-- A `discord.Embed` object; `dict` models its `to_dict()` serialization. -/
structure Embed where
  dict : EmbedDict
deriving DecidableEq, Repr

/-- A message-component dict; the source only reads `comp.get("type")`,
which is `none` when the key is absent. -/
structure Component where
  type : Option Nat
deriving DecidableEq, Repr

/-- A `discord.File` object, abstract. -/
abbrev File := Nat

/-- A `discord.AllowedMentions` object, abstract. -/
abbrev AllowedMentions := Nat

/-- The value stored under `allowed_mentions` in an outbound body: records
which of the four branches of the merge logic produced it. -/
inductive AMValue where
  | empty : AMValue
  | dictOf (a : AllowedMentions) : AMValue
  | mergedOf (botAM a : AllowedMentions) : AMValue
deriving DecidableEq, Repr

/-- The bot/client collaborator; the state machine only reads
`bot.allowed_mentions`. -/
structure Bot where
  allowedMentions : Option AllowedMentions
deriving DecidableEq, Repr

/-- The `allowed_mentions` merge logic shared verbatim by
`InteractionContext.send` and `ComponentContext.edit_origin`. -/
def resolveAllowedMentions (bot : Bot) (am : Option AllowedMentions) : AMValue :=
  match am with
  | some a =>
    match bot.allowedMentions with
    | some b => AMValue.mergedOf b a
    | none => AMValue.dictOf a
  | none =>
    match bot.allowedMentions with
    | some b => AMValue.dictOf b
    | none => AMValue.empty

/-- The `base` dict built by `InteractionContext.send` before branching. -/
structure SendBase where
  content : String
  tts : Bool
  embeds : List EmbedDict
  allowedMentions : AMValue
  components : List Component
  flags64 : Bool
deriving DecidableEq, Repr

/-- The acknowledgment body built by `defer`: `{"type": t}` plus an optional
`"data": {"flags": 64}`. -/
structure DeferBody where
  type : Nat
  dataFlags64 : Bool
deriving DecidableEq, Repr

/-- The `_resp` dict built by `ComponentContext.edit_origin`; a field is
`none` when its key is absent from the dict. -/
structure EditResp where
  content : Option (Option String)
  components : Option (List Component)
  embeds : Option (List EmbedDict)
  allowedMentions : AMValue
deriving DecidableEq, Repr

/-- Body of a `post_initial_response` call. -/
inductive InitialBody where
  | deferAck (b : DeferBody) : InitialBody
  | sendInitial (base : SendBase) : InitialBody
  | editOriginInitial (resp : EditResp) : InitialBody
deriving DecidableEq, Repr

/-- Body of an `edit` call on the interaction response. -/
inductive EditBody where
  | emptyDict : EditBody
  | ofSendBase (b : SendBase) : EditBody
  | ofEditResp (r : EditResp) : EditBody
deriving DecidableEq, Repr

/-- One outbound HTTP request issued through the `_http` collaborator. -/
inductive HttpRequest where
  | postInitialResponse (body : InitialBody) : HttpRequest
  | edit (body : EditBody) (files : Option (List File)) : HttpRequest
  | postFollowup (body : SendBase) (files : Option (List File)) : HttpRequest
deriving DecidableEq, Repr

/-- True exactly on `post_initial_response` requests. -/
def HttpRequest.isPostInitialResponse : HttpRequest → Bool
  | HttpRequest.postInitialResponse _ => true
  | _ => false

/-- Number of `post_initial_response` requests in a request trace. -/
def countInitial (l : List HttpRequest) : Nat :=
  (l.filter HttpRequest.isPostInitialResponse).length

/-- An HTTP response body, abstract: tagged by the call that returned it. -/
inductive RespData where
  | emptyDict : RespData
  | ofEdit (body : EditBody) : RespData
  | ofFollowup (body : SendBase) : RespData
deriving DecidableEq, Repr

/-- A `model.SlashMessage` constructed from a response body. -/
structure SlashMessage where
  data : RespData
deriving DecidableEq, Repr

/-- The errors raised by the state machine
(`error.AlreadyResponded`, `error.IncorrectFormat`). -/
inductive Err where
  | alreadyResponded (msg : String) : Err
  | incorrectFormat (msg : String) : Err
deriving DecidableEq, Repr

/-- Result of an operation: normal return or raised error. -/
inductive Res (α : Type) where
  | ok (a : α) : Res α
  | err (e : Err) : Res α
deriving DecidableEq, Repr

/-- True when the operation returned normally. -/
def Res.isOk {α : Type} : Res α → Bool
  | Res.ok _ => true
  | Res.err _ => false

/-- True when the operation raised `IncorrectFormat` (any message). -/
def Res.isIncorrectFormat {α : Type} : Res α → Bool
  | Res.err (Err.incorrectFormat _) => true
  | _ => false

/-- The mutable response state of a context: `deferred`, `responded`,
`_deferred_hidden`, `_deferred_edit_origin`, and the `message` attribute
assigned on a non-hidden initial response. -/
structure Ctx where
  deferred : Bool
  responded : Bool
  deferredHidden : Bool
  deferredEditOrigin : Bool
  message : Option SlashMessage
deriving DecidableEq, Repr

/-- The state of a context as freshly constructed by `__init__`. -/
def initialCtx : Ctx :=
  ⟨false, false, false, false, none⟩

/-- Which concrete context class the operation runs on, making the dynamic
dispatch of `self.defer` inside the inherited `send` explicit.
`SlashContext` uses the base-class `defer`/`send` unchanged. -/
inductive CtxKind where
  | slash : CtxKind
  | component : CtxKind
  | menu : CtxKind
deriving DecidableEq, Repr

/-- Python truthiness of an optional object (`discord.Embed`, file, ...). -/
def truthyOpt {α : Type} (o : Option α) : Bool :=
  o.isSome

/-- Python truthiness of an optional list: present and non-empty. -/
def truthyList {α : Type} (o : Option (List α)) : Bool :=
  match o with
  | some l => !l.isEmpty
  | none => false

/-- Python truthiness of the optional float `delete_after`. -/
def truthyQ (o : Option ℚ) : Bool :=
  match o with
  | some q => decide (q ≠ 0)
  | none => false

/-- The message of `error.AlreadyResponded` raised by every `defer`. -/
def alreadyMsg : String :=
  "You have already responded to this command!"

/-- Outcome of a `defer` call: final state, issued requests, and result. -/
structure DeferOutcome where
  ctx : Ctx
  requests : List HttpRequest
  result : Res Unit
deriving DecidableEq, Repr

/-- `InteractionContext.defer(hidden)` (also inherited by `SlashContext`). -/
def InteractionContext.defer (ctx : Ctx) (hidden : Bool) : DeferOutcome :=
  if ctx.deferred || ctx.responded then
    ⟨ctx, [], Res.err (Err.alreadyResponded alreadyMsg)⟩
  else
    let base : DeferBody := ⟨5, hidden⟩
    let ctx1 := if hidden then { ctx with deferredHidden := true } else ctx
    ⟨{ ctx1 with deferred := true },
      [HttpRequest.postInitialResponse (InitialBody.deferAck base)],
      Res.ok ()⟩

/-- `ComponentContext.defer(hidden, edit_origin, ignore)`. -/
def ComponentContext.defer (ctx : Ctx) (hidden editOrigin ig : Bool) :
    DeferOutcome :=
  if ctx.deferred || ctx.responded then
    ⟨ctx, [], Res.err (Err.alreadyResponded alreadyMsg)⟩
  else if editOrigin && ig then
    ⟨ctx, [],
      Res.err (Err.incorrectFormat "'edit_origin' and 'ignore' are mutually exclusive")⟩
  else if hidden && editOrigin then
    ⟨ctx, [],
      Res.err (Err.incorrectFormat "'hidden' and 'edit_origin' flags are mutually exclusive")⟩
  else
    let base : DeferBody :=
      ⟨if editOrigin || ig then 6 else 5, hidden && !ig⟩
    let ctx1 := if hidden then { ctx with deferredHidden := true } else ctx
    let ctx2 := { ctx1 with deferredEditOrigin := editOrigin }
    let ctx3 :=
      { ctx2 with
        deferred := !ig
        responded := if ig then true else ctx2.responded }
    ⟨ctx3, [HttpRequest.postInitialResponse (InitialBody.deferAck base)], Res.ok ()⟩

/-- `MenuContext.defer`: its body is character-for-character the same as
`ComponentContext.defer`. -/
def MenuContext.defer (ctx : Ctx) (hidden editOrigin ig : Bool) : DeferOutcome :=
  ComponentContext.defer ctx hidden editOrigin ig

/-- The `self.defer(hidden=hidden)` call inside the inherited `send` body,
resolved per concrete class. -/
def dispatchDefer (k : CtxKind) (ctx : Ctx) (hidden : Bool) : DeferOutcome :=
  match k with
  | CtxKind.slash => InteractionContext.defer ctx hidden
  | CtxKind.component => ComponentContext.defer ctx hidden false false
  | CtxKind.menu => MenuContext.defer ctx hidden false false

/-- The hidden/visible mismatch warning logged by `InteractionContext.send`. -/
def hiddenMismatchWarning : String :=
  "Deferred response might not be what you set it to! (hidden / visible) This is because it was deferred in a different state."

/-- The response-type mismatch warning logged by `ComponentContext.send`,
`MenuContext.send` and `ComponentContext.edit_origin`. -/
def editOriginMismatchWarning : String :=
  "Deferred response might not be what you set it to! (edit origin / send response message) This is because it was deferred with different response type."

/-- The keyword arguments of `InteractionContext.send`. -/
structure SendArgs where
  content : String
  embed : Option Embed
  embeds : Option (List Embed)
  tts : Bool
  file : Option File
  files : Option (List File)
  allowedMentions : Option AllowedMentions
  hidden : Bool
  deleteAfter : Option ℚ
  components : Option (List Component)
deriving DecidableEq, Repr

/-- A delayed-delete task scheduled via `bot.loop.create_task`. -/
structure DeleteTask where
  msg : SlashMessage
  delay : ℚ
deriving DecidableEq, Repr

/-- The value returned by `send`: a `SlashMessage` when not hidden, the raw
response dict otherwise. -/
inductive SendResult where
  | message (m : SlashMessage) : SendResult
  | raw (r : RespData) : SendResult
deriving DecidableEq, Repr

/-- Outcome of a `send` call. -/
structure SendOutcome where
  ctx : Ctx
  requests : List HttpRequest
  warnings : List String
  tasks : List DeleteTask
  result : Res SendResult
deriving DecidableEq, Repr

/-- True when `send` returned the raw response dict. -/
def SendOutcome.returnsRaw (o : SendOutcome) : Bool :=
  match o.result with
  | Res.ok (SendResult.raw _) => true
  | _ => false

/-- True when `send` returned a constructed `SlashMessage`. -/
def SendOutcome.returnsMessage (o : SendOutcome) : Bool :=
  match o.result with
  | Res.ok (SendResult.message _) => true
  | _ => false

/-- The local `embeds` after `if embed: embeds = [embed]`. -/
def normEmbeds (a : SendArgs) : Option (List Embed) :=
  match a.embed with
  | some e => some [e]
  | none => a.embeds

/-- The local `files` after `if file: files = [file]`. -/
def normFiles (a : SendArgs) : Option (List File) :=
  match a.file with
  | some f => some [f]
  | none => a.files

/-- The `base` dict assembled by `InteractionContext.send`. -/
def buildBase (bot : Bot) (a : SendArgs) : SendBase :=
  ⟨a.content, a.tts,
    (if truthyList (normEmbeds a) then ((normEmbeds a).getD []).map Embed.dict else []),
    resolveAllowedMentions bot a.allowedMentions,
    (a.components).getD [],
    a.hidden⟩

/-- A `send` outcome that raised `IncorrectFormat` during argument
validation: state untouched, no request, no warning, no task. -/
def sendErr (ctx : Ctx) (msg : String) : SendOutcome :=
  ⟨ctx, [], [], [], Res.err (Err.incorrectFormat msg)⟩

/-- The tail of `InteractionContext.send` after the HTTP branch: build a
`SlashMessage` and schedule the delete task when not hidden, assign
`self.message` on the initial response, return the raw dict when hidden. -/
def sendFinish (a : SendArgs) (ctx : Ctx) (reqs : List HttpRequest)
    (warns : List String) (resp : RespData) (initialMessage : Bool) :
    SendOutcome :=
  if !a.hidden then
    let smsg : SlashMessage := ⟨resp⟩
    let tasks :=
      if truthyQ a.deleteAfter then [(⟨smsg, (a.deleteAfter).getD 0⟩ : DeleteTask)]
      else []
    let ctx2 := if initialMessage then { ctx with message := some smsg } else ctx
    ⟨ctx2, reqs, warns, tasks, Res.ok (SendResult.message smsg)⟩
  else
    ⟨ctx, reqs, warns, [], Res.ok (SendResult.raw resp)⟩

/-- The first `IncorrectFormat` message raised by the argument-validation
prologue of `InteractionContext.send`, in source order, or `none` when every
check passes. -/
def sendValidationError (a : SendArgs) : Option String :=
  if truthyOpt a.embed && truthyList a.embeds then
    some "You can't use both `embed` and `embeds`!"
  else if truthyList (normEmbeds a) && decide (((normEmbeds a).getD []).length > 10) then
    some "Do not provide more than 10 embeds."
  else if truthyOpt a.file && truthyList a.files then
    some "You can't use both `file` and `files`!"
  else if truthyQ a.deleteAfter && a.hidden then
    some "You can't delete a hidden message!"
  else if truthyList a.components
      && !((a.components.getD []).all (fun c => c.type == some 1)) then
    some "The top level of the components list must be made of ActionRows!"
  else
    none

/-- The `if self.deferred: ... else: ...` body of `send` inside the
`not self.responded` branch, after the optional internal defer left the
context in state `c` having already issued `reqs`. -/
def sendInitialBranch (a : SendArgs) (base : SendBase) (files : Option (List File))
    (c : Ctx) (reqs : List HttpRequest) : SendOutcome :=
  if c.deferred then
    let warns := if c.deferredHidden != a.hidden then [hiddenMismatchWarning] else []
    sendFinish a { c with deferred := false, responded := true }
      (reqs ++ [HttpRequest.edit (EditBody.ofSendBase base) files])
      warns (RespData.ofEdit (EditBody.ofSendBase base)) true
  else if !a.hidden then
    sendFinish a { c with responded := true }
      (reqs ++ [HttpRequest.postInitialResponse (InitialBody.sendInitial base),
        HttpRequest.edit EditBody.emptyDict none])
      [] (RespData.ofEdit EditBody.emptyDict) true
  else
    sendFinish a { c with responded := true }
      (reqs ++ [HttpRequest.postInitialResponse (InitialBody.sendInitial base)])
      [] RespData.emptyDict true

/-- The response branch of `send` (everything after the `base` dict is
assembled): initial response (with internal defer when files are attached),
deferred edit, or followup. -/
def sendStateMachine (k : CtxKind) (bot : Bot) (ctx : Ctx) (a : SendArgs) :
    SendOutcome :=
  let files := normFiles a
  let base := buildBase bot a
  if !ctx.responded then
    if truthyList files && !ctx.deferred then
      let d := dispatchDefer k ctx a.hidden
      match d.result with
      | Res.err e => ⟨d.ctx, d.requests, [], [], Res.err e⟩
      | Res.ok _ => sendInitialBranch a base files d.ctx d.requests
    else
      sendInitialBranch a base files ctx []
  else
    sendFinish a ctx [HttpRequest.postFollowup base files] []
      (RespData.ofFollowup base) false

/-- `InteractionContext.send(...)` (also inherited by `SlashContext`; the
`CtxKind` makes the dynamic dispatch of the internal `self.defer` explicit). -/
def InteractionContext.send (k : CtxKind) (bot : Bot) (ctx : Ctx)
    (a : SendArgs) : SendOutcome :=
  match sendValidationError a with
  | some msg => sendErr ctx msg
  | none => sendStateMachine k bot ctx a

/-- `ComponentContext.send`: logs the response-type mismatch warning when the
context was deferred with `edit_origin=True`, then calls the base `send`. -/
def ComponentContext.send (bot : Bot) (ctx : Ctx) (a : SendArgs) : SendOutcome :=
  let pre :=
    if ctx.deferred && ctx.deferredEditOrigin then [editOriginMismatchWarning] else []
  let o := InteractionContext.send CtxKind.component bot ctx a
  { o with warnings := pre ++ o.warnings }

/-- `MenuContext.send`: same wrapper as `ComponentContext.send`. -/
def MenuContext.send (bot : Bot) (ctx : Ctx) (a : SendArgs) : SendOutcome :=
  let pre :=
    if ctx.deferred && ctx.deferredEditOrigin then [editOriginMismatchWarning] else []
  let o := InteractionContext.send CtxKind.menu bot ctx a
  { o with warnings := pre ++ o.warnings }

/-- The keyword arguments of `ComponentContext.edit_origin(**fields)`.
The outer `Option` distinguishes an absent key (`KeyError`) from a key
present with value `None`; `file`, `files` and `allowed_mentions` are read
with `fields.get(...)`, which conflates the two. -/
structure EditOriginArgs where
  content : Option (Option String)
  components : Option (Option (List Component))
  embeds : Option (Option (List Embed))
  embed : Option (Option Embed)
  file : Option File
  files : Option (List File)
  allowedMentions : Option AllowedMentions
deriving DecidableEq, Repr

/-- Outcome of an `edit_origin` call (the method returns `None`). -/
structure EditOriginOutcome where
  ctx : Ctx
  requests : List HttpRequest
  warnings : List String
  result : Res Unit
deriving DecidableEq, Repr

/-- The local `files` of `edit_origin` after `if file: files = [file]`. -/
def eoNormFiles (a : EditOriginArgs) : Option (List File) :=
  match a.file with
  | some f => some [f]
  | none => a.files

/-- The `_resp` dict of `edit_origin` as assembled when no validation error
fires: used only on the argument combinations where `edit_origin` does not
raise during field processing. -/
def eoBuildResp (bot : Bot) (a : EditOriginArgs) : EditResp :=
  ⟨a.content,
    (match a.components with
     | some none => some []
     | some (some l) => some l
     | none => none),
    (match a.embeds with
     | some (some l) => some (l.map Embed.dict)
     | _ =>
       match a.embed with
       | some none => some []
       | some (some e) => some [e.dict]
       | none => none),
    resolveAllowedMentions bot a.allowedMentions⟩

/-- True when the arguments of `edit_origin` pass its field validation:
`embeds`, when present, is an actual list of at most 10 embeds and is not
combined with an `embed` key; `file` and `files` are not both non-`None`. -/
def eoArgsValid (a : EditOriginArgs) : Bool :=
  (match a.embeds with
   | some none => false
   | some (some l) => decide (l.length ≤ 10) && !a.embed.isSome
   | none => true)
  && !(a.files.isSome && a.file.isSome)

/-- The `if self.deferred: ... else: ...` body of `edit_origin` inside the
`not self.responded` branch, after the optional internal defer left the
context in state `c` having already issued `reqs`. -/
def eoInitialBranch (resp : EditResp) (files : Option (List File)) (c : Ctx)
    (reqs : List HttpRequest) : EditOriginOutcome :=
  if c.deferred then
    let warns := if !c.deferredEditOrigin then [editOriginMismatchWarning] else []
    ⟨{ c with deferred := false, responded := true },
      reqs ++ [HttpRequest.edit (EditBody.ofEditResp resp) files],
      warns, Res.ok ()⟩
  else
    ⟨{ c with responded := true },
      reqs ++ [HttpRequest.postInitialResponse (InitialBody.editOriginInitial resp)],
      [], Res.ok ()⟩

/-- The part of `ComponentContext.edit_origin` from the `file`/`files`
check onwards (reached only when the `embeds`/`embed` field processing did
not raise). -/
def ComponentContext.editOriginTail (bot : Bot) (ctx : Ctx) (a : EditOriginArgs) :
    EditOriginOutcome :=
  if a.files.isSome && a.file.isSome then
    ⟨ctx, [], [], Res.err (Err.incorrectFormat "You can't use both `file` and `files`!")⟩
  else
    let files := eoNormFiles a
    let resp := eoBuildResp bot a
    if !ctx.responded then
      if truthyList files && !ctx.deferred then
        let d := ComponentContext.defer ctx false true false
        match d.result with
        | Res.err e => ⟨d.ctx, d.requests, [], Res.err e⟩
        | Res.ok _ => eoInitialBranch resp files d.ctx d.requests
      else
        eoInitialBranch resp files ctx []
    else
      ⟨ctx, [], [], Res.err (Err.incorrectFormat "Already responded")⟩

/-- `ComponentContext.edit_origin(**fields)`. -/
def ComponentContext.edit_origin (bot : Bot) (ctx : Ctx) (a : EditOriginArgs) :
    EditOriginOutcome :=
  match a.embeds with
  | some none => ⟨ctx, [], [], Res.err (Err.incorrectFormat "Provide a list of embeds.")⟩
  | some (some l) =>
    if decide (l.length > 10) then
      ⟨ctx, [], [], Res.err (Err.incorrectFormat "Do not provide more than 10 embeds.")⟩
    else if a.embed.isSome then
      ⟨ctx, [], [], Res.err (Err.incorrectFormat "You can't use both `embed` and `embeds`!")⟩
    else ComponentContext.editOriginTail bot ctx a
  | none => ComponentContext.editOriginTail bot ctx a

/-- The embed title written by `_cleanup` for each terminal prompt state. -/
def cleanupTitle (confirm : Option Bool) (expired : Bool) : String :=
  match confirm with
  | some true => "Confirmed: ✅"
  | some false => "Not Confirmed: ❌"
  | none => if expired then "Not Confirmed: Took too long" else "Not Confirmed: Canceled"

/-- The observable actions of the `_cleanup` helper: whether it sent a result
message, deleted the prompt message, disabled the buttons and re-submitted
the recolored/retitled message via `edit_origin`, and which title it set. -/
structure CleanupActions where
  sentResult : Bool
  deletedMessage : Bool
  disabledButtons : Bool
  editedOrigin : Bool
  title : Option String
deriving DecidableEq, Repr

/-- `_cleanup(context, message, buttons, confirm, delete_after, expired,
hidden)`: sends a result message when `hidden or delete_after`; then either
deletes the prompt message (`delete_after`) or disables every button,
recolors/retitles the first embed and edits the origin message. -/
def cleanupActions (confirm : Option Bool) (deleteAfter expired hidden : Bool) :
    CleanupActions :=
  let sent := hidden || deleteAfter
  if deleteAfter then
    ⟨sent, true, false, false, none⟩
  else
    ⟨sent, false, true, true, some (cleanupTitle confirm expired)⟩

/-- Joint outcome of the `try` block of `InteractionContext.prompt` that
waits for a button click: success (with which button was clicked), external
cancellation of the waiting task (with the value the nonlocal `confirm` had
when the cancellation arrived), timeout, or any other exception. -/
inductive PromptWait where
  | completed (clickedYes : Bool) : PromptWait
  | cancelled (confirmAtCancel : Option Bool) : PromptWait
  | timedOut : PromptWait
  | failed : PromptWait
deriving DecidableEq, Repr

/-- The value `prompt` hands back to its caller. -/
inductive PromptValue where
  | confirmOnly (c : Option Bool) : PromptValue
  | confirmAndMessage (c : Option Bool) : PromptValue
deriving DecidableEq, Repr

/-- What `prompt` did after the wait finished: which cleanup ran (if any),
whether the cancellation was re-raised to the caller, what was returned,
and whether a visible failure notice ("Took too long" / "An error
occurred") was sent first. -/
structure PromptResult where
  cleanup : Option CleanupActions
  raisesCancelled : Bool
  returnValue : Option PromptValue
  sentFailureNotice : Bool
deriving DecidableEq, Repr

/-- The tail of `InteractionContext.prompt` after the confirmation message
has been sent, as a function of how the wait for the button ended (the
network sends inside are abstracted into the recorded actions; the except
handler for `asyncio.CancelledError` is modelled as running sequentially
to completion, lines 262-264 of `context.py`). -/
def InteractionContext.promptAfterSend (w : PromptWait)
    (deleteAfter hidden returnMessage : Bool) : PromptResult :=
  let normalValue : Option Bool → PromptValue := fun c =>
    if returnMessage && !hidden then PromptValue.confirmAndMessage c
    else PromptValue.confirmOnly c
  match w with
  | PromptWait.completed b =>
    ⟨some (cleanupActions (some b) deleteAfter false hidden), false,
      some (normalValue (some b)), false⟩
  | PromptWait.cancelled c =>
    ⟨some (cleanupActions c deleteAfter false hidden), false,
      some (PromptValue.confirmOnly c), false⟩
  | PromptWait.timedOut =>
    ⟨some (cleanupActions none deleteAfter true hidden), false,
      some (normalValue none), true⟩
  | PromptWait.failed =>
    ⟨some (cleanupActions none deleteAfter false hidden), false,
      some (normalValue none), true⟩

/-- One call of a state-machine operation, with its arguments. -/
inductive Op where
  | deferSlash (hidden : Bool) : Op
  | deferComponent (hidden editOrigin ig : Bool) : Op
  | deferMenu (hidden editOrigin ig : Bool) : Op
  | sendOp (k : CtxKind) (bot : Bot) (a : SendArgs) : Op
  | editOriginOp (bot : Bot) (a : EditOriginArgs) : Op
deriving Repr

/-- The context state after one operation (raised errors leave the state as
the operation left it, which for every raise in the source is unchanged). -/
def stepCtx (ctx : Ctx) (op : Op) : Ctx :=
  match op with
  | Op.deferSlash h => (InteractionContext.defer ctx h).ctx
  | Op.deferComponent h e i => (ComponentContext.defer ctx h e i).ctx
  | Op.deferMenu h e i => (MenuContext.defer ctx h e i).ctx
  | Op.sendOp k bot a => (InteractionContext.send k bot ctx a).ctx
  | Op.editOriginOp bot a => (ComponentContext.edit_origin bot ctx a).ctx

/-- The context state after a sequence of operations starting from the
freshly constructed state. -/
def runOps (ops : List Op) : Ctx :=
  ops.foldl stepCtx initialCtx

/-- A bot with no bot-level allowed-mentions setting. -/
def bot0 : Bot := ⟨none⟩

/-- A plain `send()` call: every keyword left at its default. -/
def sendArgs0 : SendArgs := ⟨"", none, none, false, none, none, none, false, none, none⟩

/-- A `send(hidden=True)` call with every other keyword at its default. -/
def hiddenArgs0 : SendArgs := ⟨"", none, none, false, none, none, none, true, none, none⟩

/-- A context that has already responded. -/
def respondedCtx : Ctx := ⟨false, true, false, false, none⟩

/-- A context that is currently deferred (visible). -/
def deferredCtx : Ctx := ⟨true, false, false, false, none⟩

/-- An `edit_origin()` call with no fields. -/
def eoArgs0 : EditOriginArgs := ⟨none, none, none, none, none, none, none⟩

/-- A `send(embed=..., embeds=[...])` call: both embed parameters truthy. -/
def embedConflictArgs : SendArgs :=
  ⟨"", some ⟨0⟩, some [⟨1⟩], false, none, none, none, false, none, none⟩

/-- A `send(hidden=True, delete_after=5)` call. -/
def hiddenDeleteArgs : SendArgs :=
  ⟨"", none, none, false, none, none, none, true, some 5, none⟩

/-! ## Helper lemmas about the building blocks -/

theorem sendFinish_requests (a : SendArgs) (c : Ctx) (reqs : List HttpRequest)
    (w : List String) (r : RespData) (im : Bool) :
    (sendFinish a c reqs w r im).requests = reqs := by
  unfold sendFinish
  split <;> rfl

theorem sendFinish_isOk (a : SendArgs) (c : Ctx) (reqs : List HttpRequest)
    (w : List String) (r : RespData) (im : Bool) :
    Res.isOk (sendFinish a c reqs w r im).result = true := by
  unfold sendFinish
  split <;> rfl

theorem sendFinish_hidden (a : SendArgs) (c : Ctx) (reqs : List HttpRequest)
    (w : List String) (r : RespData) (im : Bool) (h : a.hidden = true) :
    sendFinish a c reqs w r im = ⟨c, reqs, w, [], Res.ok (SendResult.raw r)⟩ := by
  unfold sendFinish
  simp [h]

/-! ## C1 -/

/-- Case analysis of `send` on an already-responded context: it either
raises during validation (state untouched, no request) or issues exactly
the followup request. -/
theorem send_responded_cases (k : CtxKind) (bot : Bot) (ctx : Ctx) (a : SendArgs)
    (h : ctx.responded = true) :
    (∃ msg, InteractionContext.send k bot ctx a = sendErr ctx msg) ∨
    InteractionContext.send k bot ctx a =
      sendFinish a ctx
        [HttpRequest.postFollowup (buildBase bot a) (normFiles a)] []
        (RespData.ofFollowup (buildBase bot a)) false := by
  unfold InteractionContext.send
  split
  · exact Or.inl ⟨_, rfl⟩
  · refine Or.inr ?_
    unfold sendStateMachine
    rw [h]
    rfl

/-- C1: for every interaction context whose `responded` flag is true, a
further `send` call never issues `post_initial_response`; whenever such a
call returns normally its request trace is exactly one `post_followup`. -/
theorem send_after_responded_only_followup (k : CtxKind) (bot : Bot) (ctx : Ctx)
    (a : SendArgs) (h : ctx.responded = true) :
    countInitial (InteractionContext.send k bot ctx a).requests = 0 ∧
    (Res.isOk (InteractionContext.send k bot ctx a).result = true →
      (InteractionContext.send k bot ctx a).requests =
        [HttpRequest.postFollowup (buildBase bot a) (normFiles a)]) := by
  rcases send_responded_cases k bot ctx a h with ⟨msg, hm⟩ | hm
  · rw [hm]
    simp [sendErr, countInitial, Res.isOk]
  · rw [hm]
    refine ⟨?_, fun _ => ?_⟩
    · rw [sendFinish_requests]
      rfl
    · rw [sendFinish_requests]

/-- Witness for C1 at a concrete already-responded context and a plain
`send()` call. -/
theorem send_after_responded_only_followup_witness :
    countInitial (InteractionContext.send CtxKind.slash bot0 respondedCtx sendArgs0).requests = 0 ∧
    (InteractionContext.send CtxKind.slash bot0 respondedCtx sendArgs0).requests =
      [HttpRequest.postFollowup (buildBase bot0 sendArgs0) (normFiles sendArgs0)] :=
  ⟨(send_after_responded_only_followup CtxKind.slash bot0 respondedCtx sendArgs0 rfl).1,
    (send_after_responded_only_followup CtxKind.slash bot0 respondedCtx sendArgs0 rfl).2 (by decide)⟩

/-! ## C2 -/

/-- C2: `defer` (base version and the component/menu version, which share
the check) returns normally only when both `deferred` and `responded` are
false; when either flag is already set it raises `AlreadyResponded` with
the "already responded" message, leaves the state untouched, and issues no
HTTP request. -/
theorem defer_requires_fresh (ctx : Ctx) (hidden editOrigin ig : Bool) :
    (Res.isOk (InteractionContext.defer ctx hidden).result = true →
      ctx.deferred = false ∧ ctx.responded = false) ∧
    (Res.isOk (ComponentContext.defer ctx hidden editOrigin ig).result = true →
      ctx.deferred = false ∧ ctx.responded = false) ∧
    ((ctx.deferred = true ∨ ctx.responded = true) →
      InteractionContext.defer ctx hidden =
        ⟨ctx, [], Res.err (Err.alreadyResponded alreadyMsg)⟩ ∧
      ComponentContext.defer ctx hidden editOrigin ig =
        ⟨ctx, [], Res.err (Err.alreadyResponded alreadyMsg)⟩) := by
  cases hd : ctx.deferred <;> cases hr : ctx.responded <;>
    simp [InteractionContext.defer, ComponentContext.defer, Res.isOk, hd, hr]

/-- Witness for C2: two successive `defer` calls on a fresh context; the
second raises "already responded" and issues no request. -/
theorem defer_requires_fresh_witness :
    InteractionContext.defer (InteractionContext.defer initialCtx false).ctx false =
      ⟨(InteractionContext.defer initialCtx false).ctx, [],
        Res.err (Err.alreadyResponded alreadyMsg)⟩ :=
  ((defer_requires_fresh (InteractionContext.defer initialCtx false).ctx
    false false false).2.2 (Or.inl (by decide))).1

/-! ## C3 -/

theorem sendInitialBranch_isOk (a : SendArgs) (base : SendBase)
    (files : Option (List File)) (c : Ctx) (reqs : List HttpRequest) :
    Res.isOk (sendInitialBranch a base files c reqs).result = true := by
  unfold sendInitialBranch
  split
  · exact sendFinish_isOk _ _ _ _ _ _
  · split
    · exact sendFinish_isOk _ _ _ _ _ _
    · exact sendFinish_isOk _ _ _ _ _ _

theorem sendInitialBranch_length (a : SendArgs) (base : SendBase)
    (files : Option (List File)) (c : Ctx) (reqs : List HttpRequest) :
    (sendInitialBranch a base files c reqs).requests.length =
      reqs.length + (if c.deferred then 1 else if !a.hidden then 2 else 1) := by
  unfold sendInitialBranch
  split
  · rw [sendFinish_requests]
    simp [*]
  · split
    · rw [sendFinish_requests]
      simp [*]
    · rw [sendFinish_requests]
      simp [*]

theorem dispatchDefer_fresh (k : CtxKind) (ctx : Ctx) (h : Bool)
    (hd : ctx.deferred = false) (hr : ctx.responded = false) :
    (dispatchDefer k ctx h).result = Res.ok () ∧
    (dispatchDefer k ctx h).requests.length = 1 ∧
    (dispatchDefer k ctx h).ctx.deferred = true ∧
    (dispatchDefer k ctx h).ctx.responded = false := by
  cases k <;>
    simp [dispatchDefer, InteractionContext.defer, ComponentContext.defer,
      MenuContext.defer, hd, hr] <;>
    cases h <;> simp [hr]

theorem sendStateMachine_ok_and_length (k : CtxKind) (bot : Bot) (ctx : Ctx)
    (a : SendArgs) :
    Res.isOk (sendStateMachine k bot ctx a).result = true ∧
    (sendStateMachine k bot ctx a).requests.length =
      (if ctx.responded then 1 else if ctx.deferred then 1
       else if truthyList (normFiles a) then 2
       else if a.hidden then 1 else 2) := by
  unfold sendStateMachine
  cases hr : ctx.responded
  · cases hd : ctx.deferred
    · cases hf : truthyList (normFiles a)
      · cases hh : a.hidden <;>
          simp [hr, hd, hf, hh, sendInitialBranch_isOk, sendInitialBranch_length]
      · obtain ⟨hres, hlen, hdef, hresp⟩ := dispatchDefer_fresh k ctx a.hidden hd hr
        simp [hr, hd, hf, hres, sendInitialBranch_isOk, sendInitialBranch_length,
          hlen, hdef]
    · simp [hr, hd, sendInitialBranch_isOk, sendInitialBranch_length]
  · simp [hr, sendFinish_isOk, sendFinish_requests]

theorem eoInitialBranch_isOk (resp : EditResp) (files : Option (List File))
    (c : Ctx) (reqs : List HttpRequest) :
    Res.isOk (eoInitialBranch resp files c reqs).result = true := by
  unfold eoInitialBranch
  split <;> rfl

theorem eoInitialBranch_length (resp : EditResp) (files : Option (List File))
    (c : Ctx) (reqs : List HttpRequest) :
    (eoInitialBranch resp files c reqs).requests.length = reqs.length + 1 := by
  unfold eoInitialBranch
  split <;> simp

theorem ccDefer_editOrigin_fresh (ctx : Ctx) (hd : ctx.deferred = false)
    (hr : ctx.responded = false) :
    (ComponentContext.defer ctx false true false).result = Res.ok () ∧
    (ComponentContext.defer ctx false true false).requests.length = 1 ∧
    (ComponentContext.defer ctx false true false).ctx.deferred = true ∧
    (ComponentContext.defer ctx false true false).ctx.responded = false := by
  simp [ComponentContext.defer, hd, hr]

theorem editOriginTail_ok_length (bot : Bot) (ctx : Ctx) (a : EditOriginArgs)
    (hk : Res.isOk (ComponentContext.editOriginTail bot ctx a).result = true) :
    (ComponentContext.editOriginTail bot ctx a).requests.length =
      (if truthyList (eoNormFiles a) && !ctx.deferred then 2 else 1) := by
  unfold ComponentContext.editOriginTail at hk ⊢
  cases hfc : (a.files.isSome && a.file.isSome)
  · cases hr : ctx.responded
    · cases hcond : (truthyList (eoNormFiles a) && !ctx.deferred)
      · simp [hfc, hr, hcond, eoInitialBranch_length]
      · have hd : ctx.deferred = false := by
          have h2 := hcond
          simp [Bool.and_eq_true] at h2
          exact h2.2
        obtain ⟨hres, hlen, hdef, hresp⟩ := ccDefer_editOrigin_fresh ctx hd hr
        simp [hfc, hr, hcond, hres, eoInitialBranch_length, hlen, hdef]
    · simp [hfc, hr, Res.isOk] at hk
  · simp [hfc, Res.isOk] at hk

/-- C3 counterexample: a validated `send` call from the FRESH state
(`deferred = responded = false`), with no attachments and `hidden=False` —
neither of the two compound paths the claim excepts — returns normally yet
performs two outbound HTTP requests, not one: the type-4
`post_initial_response` followed by an empty `edit` that fetches the
response message. -/
theorem send_fresh_visible_two_requests :
    Res.isOk (InteractionContext.send CtxKind.slash bot0 initialCtx sendArgs0).result = true ∧
    initialCtx.deferred = false ∧
    normFiles sendArgs0 = none ∧
    (InteractionContext.send CtxKind.slash bot0 initialCtx sendArgs0).requests =
      [HttpRequest.postInitialResponse (InitialBody.sendInitial (buildBase bot0 sendArgs0)),
        HttpRequest.edit EditBody.emptyDict none] := by
  decide

/-- C3 amended: on a call that passes validation and returns normally,
`defer` always performs exactly one request; `edit_origin` performs one,
except its attachment path (files attached while not yet deferred), which
performs two; `send` performs one from the DEFERRED or RESPONDED states and
on a hidden initial response, and two on the attachment path and on a
non-hidden initial response from FRESH (type-4 post plus an empty edit that
retrieves the message). -/
theorem request_counts (k : CtxKind) (bot : Bot) (ctx : Ctx)
    (hidden editOrigin ig : Bool) (a : SendArgs) (ea : EditOriginArgs) :
    (Res.isOk (InteractionContext.defer ctx hidden).result = true →
      (InteractionContext.defer ctx hidden).requests.length = 1) ∧
    (Res.isOk (ComponentContext.defer ctx hidden editOrigin ig).result = true →
      (ComponentContext.defer ctx hidden editOrigin ig).requests.length = 1) ∧
    (Res.isOk (InteractionContext.send k bot ctx a).result = true →
      (InteractionContext.send k bot ctx a).requests.length =
        (if ctx.responded then 1 else if ctx.deferred then 1
         else if truthyList (normFiles a) then 2
         else if a.hidden then 1 else 2)) ∧
    (Res.isOk (ComponentContext.edit_origin bot ctx ea).result = true →
      (ComponentContext.edit_origin bot ctx ea).requests.length =
        (if truthyList (eoNormFiles ea) && !ctx.deferred then 2 else 1)) := by
  refine ⟨?_, ?_, ?_, ?_⟩
  · intro hk
    cases hd : ctx.deferred <;> cases hr : ctx.responded <;>
      simp [InteractionContext.defer, hd, hr, Res.isOk] at hk ⊢
  · intro hk
    cases hd : ctx.deferred <;> cases hr : ctx.responded <;>
      cases editOrigin <;> cases ig <;> cases hidden <;>
      simp [ComponentContext.defer, hd, hr, Res.isOk] at hk ⊢
  · intro hk
    unfold InteractionContext.send at hk ⊢
    cases hv : sendValidationError a
    · simp only [hv]
      exact (sendStateMachine_ok_and_length k bot ctx a).2
    · rw [hv] at hk
      simp [sendErr, Res.isOk] at hk
  · intro hk
    unfold ComponentContext.edit_origin at hk ⊢
    rcases he : ea.embeds with _ | el
    · simp only [he] at hk ⊢
      exact editOriginTail_ok_length bot ctx ea hk
    · rcases el with _ | l
      · simp [he, Res.isOk] at hk
      · cases hlen : decide (l.length > 10)
        · cases hemb : ea.embed.isSome
          · simp only [he, hlen, hemb, Bool.false_eq_true, if_false] at hk ⊢
            exact editOriginTail_ok_length bot ctx ea hk
          · simp [he, hlen, hemb, Res.isOk] at hk
        · simp [he, hlen, Res.isOk] at hk

/-- Witness for C3 amended: a hidden `defer` followed by a `send` from the
DEFERRED state performs one request for each call. -/
theorem request_counts_witness :
    (InteractionContext.defer initialCtx true).requests.length = 1 ∧
    (InteractionContext.send CtxKind.slash bot0 deferredCtx sendArgs0).requests.length = 1 :=
  ⟨(request_counts CtxKind.slash bot0 initialCtx true false false sendArgs0 eoArgs0).1
      (by decide),
    by
      have h3 := (request_counts CtxKind.slash bot0 deferredCtx false false false
        sendArgs0 eoArgs0).2.2.1 (by decide)
      simpa using h3⟩

/-! ## C4 -/

/-- C4 counterexample: from the FRESH state, the silent "ignore" variant of
the component `defer` succeeds but does not transition to DEFERRED: it
leaves `deferred` false and sets `responded` true. -/
theorem defer_ignore_not_deferred :
    (ComponentContext.defer initialCtx false false true).result = Res.ok () ∧
    (ComponentContext.defer initialCtx false false true).ctx.deferred = false ∧
    (ComponentContext.defer initialCtx false false true).ctx.responded = true := by
  decide

/-- C4 amended: from the FRESH state the plain, hidden and edit-origin
variants of `defer` (base version, and component/menu version with
`ignore=False`) transition to DEFERRED — `deferred` becomes true while
`responded` stays false — while a successful "ignore" defer instead
transitions directly to RESPONDED, leaving `deferred` false. -/
theorem defer_fresh_transitions (ctx : Ctx) (hidden editOrigin ig : Bool)
    (hd : ctx.deferred = false) (hr : ctx.responded = false) :
    ((InteractionContext.defer ctx hidden).result = Res.ok () ∧
      (InteractionContext.defer ctx hidden).ctx.deferred = true ∧
      (InteractionContext.defer ctx hidden).ctx.responded = false) ∧
    (Res.isOk (ComponentContext.defer ctx hidden editOrigin ig).result = true →
      (ComponentContext.defer ctx hidden editOrigin ig).ctx.deferred = !ig ∧
      (ComponentContext.defer ctx hidden editOrigin ig).ctx.responded = ig) := by
  constructor
  · cases hidden <;> simp [InteractionContext.defer, hd, hr]
  · intro hk
    cases editOrigin <;> cases ig <;> cases hidden <;>
      simp [ComponentContext.defer, hd, hr, Res.isOk] at hk ⊢

/-- Witness for C4 amended: a hidden defer and an edit-origin defer from
FRESH land in DEFERRED; an ignore defer from FRESH lands in RESPONDED. -/
theorem defer_fresh_transitions_witness :
    (InteractionContext.defer initialCtx true).ctx.deferred = true ∧
    (ComponentContext.defer initialCtx false true false).ctx.deferred = true ∧
    (ComponentContext.defer initialCtx false false true).ctx.responded = true :=
  ⟨(defer_fresh_transitions initialCtx true false false rfl rfl).1.2.1,
    ((defer_fresh_transitions initialCtx false true false rfl rfl).2 (by decide)).1,
    ((defer_fresh_transitions initialCtx false false true rfl rfl).2 (by decide)).2⟩

/-! ## C5 -/

/-- C5: a `send` call with both `embed` and `embeds` set (truthy) raises
`IncorrectFormat` as its very first check: the state is untouched and no
HTTP request, warning or task is produced; the component and menu `send`
wrappers delegate and behave identically on the state, requests and
result. -/
theorem send_embed_embeds_conflict (k : CtxKind) (bot : Bot) (ctx : Ctx)
    (a : SendArgs) (h1 : truthyOpt a.embed = true) (h2 : truthyList a.embeds = true) :
    InteractionContext.send k bot ctx a =
      ⟨ctx, [], [], [],
        Res.err (Err.incorrectFormat "You can't use both `embed` and `embeds`!")⟩ ∧
    (ComponentContext.send bot ctx a).ctx = ctx ∧
    (ComponentContext.send bot ctx a).requests = [] ∧
    (ComponentContext.send bot ctx a).result =
      Res.err (Err.incorrectFormat "You can't use both `embed` and `embeds`!") ∧
    (MenuContext.send bot ctx a).ctx = ctx ∧
    (MenuContext.send bot ctx a).requests = [] ∧
    (MenuContext.send bot ctx a).result =
      Res.err (Err.incorrectFormat "You can't use both `embed` and `embeds`!") := by
  have hic : ∀ k' : CtxKind, InteractionContext.send k' bot ctx a =
      ⟨ctx, [], [], [],
        Res.err (Err.incorrectFormat "You can't use both `embed` and `embeds`!")⟩ := by
    intro k'
    unfold InteractionContext.send sendValidationError
    simp [h1, h2, sendErr]
  refine ⟨hic k, ?_, ?_, ?_, ?_, ?_, ?_⟩ <;>
    simp [ComponentContext.send, MenuContext.send, hic]

/-- Witness for C5: a fresh slash context, `embed` and `embeds` both given. -/
theorem send_embed_embeds_conflict_witness :
    InteractionContext.send CtxKind.slash bot0 initialCtx embedConflictArgs =
      ⟨initialCtx, [], [], [],
        Res.err (Err.incorrectFormat "You can't use both `embed` and `embeds`!")⟩ :=
  (send_embed_embeds_conflict CtxKind.slash bot0 initialCtx embedConflictArgs
    (by decide) (by decide)).1

/-! ## C6 -/

/-- C6: a `send` call with `delete_after` truthy and `hidden=True` raises
`IncorrectFormat` during validation — before any HTTP request — leaving the
state untouched and scheduling nothing (when another validation check fires
first, the raised error is still an `IncorrectFormat`). -/
theorem send_delete_after_hidden (k : CtxKind) (bot : Bot) (ctx : Ctx)
    (a : SendArgs) (h1 : truthyQ a.deleteAfter = true) (h2 : a.hidden = true) :
    (InteractionContext.send k bot ctx a).ctx = ctx ∧
    (InteractionContext.send k bot ctx a).requests = [] ∧
    (InteractionContext.send k bot ctx a).tasks = [] ∧
    Res.isIncorrectFormat (InteractionContext.send k bot ctx a).result = true := by
  obtain ⟨m, hv⟩ : ∃ m, sendValidationError a = some m := by
    unfold sendValidationError
    simp [h1, h2]
    split
    · exact ⟨_, rfl⟩
    · split
      · exact ⟨_, rfl⟩
      · split
        · exact ⟨_, rfl⟩
        · exact ⟨_, rfl⟩
  unfold InteractionContext.send
  rw [hv]
  simp [sendErr, Res.isIncorrectFormat]

/-- Witness for C6: `send(hidden=True, delete_after=5)` on a fresh context. -/
theorem send_delete_after_hidden_witness :
    (InteractionContext.send CtxKind.slash bot0 initialCtx hiddenDeleteArgs).ctx = initialCtx ∧
    (InteractionContext.send CtxKind.slash bot0 initialCtx hiddenDeleteArgs).requests = [] ∧
    (InteractionContext.send CtxKind.slash bot0 initialCtx hiddenDeleteArgs).tasks = [] ∧
    Res.isIncorrectFormat
      (InteractionContext.send CtxKind.slash bot0 initialCtx hiddenDeleteArgs).result = true :=
  send_delete_after_hidden CtxKind.slash bot0 initialCtx hiddenDeleteArgs
    (by decide) (by decide)

/-! ## C7 -/

theorem editOriginTail_responded (bot : Bot) (ctx : Ctx) (a : EditOriginArgs)
    (h : ctx.responded = true) :
    (ComponentContext.editOriginTail bot ctx a).ctx = ctx ∧
    (ComponentContext.editOriginTail bot ctx a).requests = [] ∧
    Res.isIncorrectFormat (ComponentContext.editOriginTail bot ctx a).result = true ∧
    ((a.files.isSome && a.file.isSome) = false →
      (ComponentContext.editOriginTail bot ctx a).result =
        Res.err (Err.incorrectFormat "Already responded")) := by
  unfold ComponentContext.editOriginTail
  cases hfc : (a.files.isSome && a.file.isSome) <;>
    simp [h, hfc, Res.isIncorrectFormat]

/-- C7: `edit_origin` on an already-responded component context raises
`IncorrectFormat`, leaves the state untouched and issues no HTTP request;
whenever the call's fields pass the validation that precedes the state
check, the error message is exactly "Already responded". -/
theorem edit_origin_after_responded (bot : Bot) (ctx : Ctx) (a : EditOriginArgs)
    (h : ctx.responded = true) :
    (ComponentContext.edit_origin bot ctx a).ctx = ctx ∧
    (ComponentContext.edit_origin bot ctx a).requests = [] ∧
    Res.isIncorrectFormat (ComponentContext.edit_origin bot ctx a).result = true ∧
    (eoArgsValid a = true →
      (ComponentContext.edit_origin bot ctx a).result =
        Res.err (Err.incorrectFormat "Already responded")) := by
  have tail := editOriginTail_responded bot ctx a h
  have hfile : eoArgsValid a = true → (a.files.isSome && a.file.isSome) = false := by
    intro hv
    unfold eoArgsValid at hv
    have h2 := ((Bool.and_eq_true _ _).mp hv).2
    cases hb : (a.files.isSome && a.file.isSome)
    · rfl
    · rw [hb] at h2
      exact absurd h2 (by decide)
  unfold ComponentContext.edit_origin
  rcases he : a.embeds with _ | el
  · exact ⟨tail.1, tail.2.1, tail.2.2.1, fun hv => tail.2.2.2 (hfile hv)⟩
  · rcases el with _ | l
    · have hnv : eoArgsValid a = false := by
        unfold eoArgsValid
        rw [he]
        simp
      simp [Res.isIncorrectFormat, hnv]
    · cases hlen : decide (l.length > 10)
      · cases hemb : a.embed.isSome
        · simp only [hlen, hemb, Bool.false_eq_true, if_false]
          exact ⟨tail.1, tail.2.1, tail.2.2.1, fun hv => tail.2.2.2 (hfile hv)⟩
        · have hnv : eoArgsValid a = false := by
            unfold eoArgsValid
            rw [he]
            simp [hemb]
          simp [hlen, hemb, Res.isIncorrectFormat, hnv]
      · have hnv : eoArgsValid a = false := by
          unfold eoArgsValid
          rw [he]
          simp at hlen
          simp [hlen]
        simp [hlen, Res.isIncorrectFormat, hnv]
/-- Witness for C7: `edit_origin()` with no fields on an already-responded
context. -/
theorem edit_origin_after_responded_witness :
    (ComponentContext.edit_origin bot0 respondedCtx eoArgs0).ctx = respondedCtx ∧
    (ComponentContext.edit_origin bot0 respondedCtx eoArgs0).requests = [] ∧
    Res.isIncorrectFormat (ComponentContext.edit_origin bot0 respondedCtx eoArgs0).result = true ∧
    (ComponentContext.edit_origin bot0 respondedCtx eoArgs0).result =
      Res.err (Err.incorrectFormat "Already responded") :=
  ⟨(edit_origin_after_responded bot0 respondedCtx eoArgs0 rfl).1,
    (edit_origin_after_responded bot0 respondedCtx eoArgs0 rfl).2.1,
    (edit_origin_after_responded bot0 respondedCtx eoArgs0 rfl).2.2.1,
    (edit_origin_after_responded bot0 respondedCtx eoArgs0 rfl).2.2.2 (by decide)⟩

/-! ## C8 -/

/-- C8 counterexample: when the wait is cancelled externally (with the
nonlocal `confirm` still `None`), the prompt runs the cleanup path —
buttons disabled, message recolored with the "Canceled" title — but does
not re-raise the cancellation: it returns the current `confirm` value. -/
theorem prompt_cancelled_swallows :
    (InteractionContext.promptAfterSend (PromptWait.cancelled none)
      false false false).raisesCancelled = false ∧
    (InteractionContext.promptAfterSend (PromptWait.cancelled none)
      false false false).cleanup = some (cleanupActions none false false false) ∧
    (cleanupActions none false false false).disabledButtons = true ∧
    (InteractionContext.promptAfterSend (PromptWait.cancelled none)
      false false false).returnValue = some (PromptValue.confirmOnly none) := by
  decide

/-- C8 amended: on external cancellation the prompt still runs the same
`_cleanup` terminal path (with `expired=False` and the `confirm` value
current at cancellation) and then returns that `confirm` value to the
caller; the cancellation is swallowed rather than re-raised. -/
theorem prompt_cancelled_cleanup_and_return (c : Option Bool)
    (deleteAfter hidden returnMessage : Bool) :
    InteractionContext.promptAfterSend (PromptWait.cancelled c)
        deleteAfter hidden returnMessage =
      ⟨some (cleanupActions c deleteAfter false hidden), false,
        some (PromptValue.confirmOnly c), false⟩ := by
  rfl

/-! ## C9 -/

theorem sendFinish_ctx_deferred (a : SendArgs) (c : Ctx) (reqs : List HttpRequest)
    (w : List String) (r : RespData) (im : Bool) :
    (sendFinish a c reqs w r im).ctx.deferred = c.deferred := by
  unfold sendFinish
  cases im <;> split <;> simp

theorem sendFinish_ctx_responded (a : SendArgs) (c : Ctx) (reqs : List HttpRequest)
    (w : List String) (r : RespData) (im : Bool) :
    (sendFinish a c reqs w r im).ctx.responded = c.responded := by
  unfold sendFinish
  cases im <;> split <;> simp

theorem sendFinish_ctx_id (a : SendArgs) (c : Ctx) (reqs : List HttpRequest)
    (w : List String) (r : RespData) :
    (sendFinish a c reqs w r false).ctx = c := by
  unfold sendFinish
  split <;> rfl

theorem icDefer_ctx_cases (ctx : Ctx) (h : Bool) :
    (InteractionContext.defer ctx h).ctx = ctx ∨
    ((InteractionContext.defer ctx h).ctx.deferred = true ∧
      (InteractionContext.defer ctx h).ctx.responded = false) := by
  cases h <;> cases hd : ctx.deferred <;> cases hr : ctx.responded <;>
    simp [InteractionContext.defer, hd, hr]

theorem ccDefer_ctx_cases (ctx : Ctx) (h e i : Bool) :
    (ComponentContext.defer ctx h e i).ctx = ctx ∨
    ((ComponentContext.defer ctx h e i).ctx.deferred = true ∧
      (ComponentContext.defer ctx h e i).ctx.responded = false) ∨
    ((ComponentContext.defer ctx h e i).ctx.deferred = false ∧
      (ComponentContext.defer ctx h e i).ctx.responded = true) := by
  cases h <;> cases e <;> cases i <;> cases hd : ctx.deferred <;>
    cases hr : ctx.responded <;> simp [ComponentContext.defer, hd, hr]

theorem sendInitialBranch_ctx (a : SendArgs) (base : SendBase)
    (files : Option (List File)) (c : Ctx) (reqs : List HttpRequest) :
    (sendInitialBranch a base files c reqs).ctx.deferred = false ∧
    (sendInitialBranch a base files c reqs).ctx.responded = true := by
  unfold sendInitialBranch
  cases hd : c.deferred <;> cases hh : a.hidden <;>
    simp [hd, hh, sendFinish_ctx_deferred, sendFinish_ctx_responded]

theorem sendStateMachine_ctx (k : CtxKind) (bot : Bot) (ctx : Ctx) (a : SendArgs) :
    ((sendStateMachine k bot ctx a).ctx.deferred = false ∧
      (sendStateMachine k bot ctx a).ctx.responded = true) ∨
    (sendStateMachine k bot ctx a).ctx = ctx := by
  unfold sendStateMachine
  cases hr : ctx.responded
  · cases hd : ctx.deferred
    · cases hf : truthyList (normFiles a)
      · simp [hr, hd, hf, sendInitialBranch_ctx]
      · obtain ⟨hres, hlen, hdef, hresp⟩ := dispatchDefer_fresh k ctx a.hidden hd hr
        simp [hr, hd, hf, hres, sendInitialBranch_ctx]
    · simp [hr, hd, sendInitialBranch_ctx]
  · simp [hr, sendFinish_ctx_id]

theorem send_ctx_cases (k : CtxKind) (bot : Bot) (ctx : Ctx) (a : SendArgs) :
    ((InteractionContext.send k bot ctx a).ctx.deferred = false ∧
      (InteractionContext.send k bot ctx a).ctx.responded = true) ∨
    (InteractionContext.send k bot ctx a).ctx = ctx := by
  unfold InteractionContext.send
  cases hv : sendValidationError a
  · simp only [hv]
    exact sendStateMachine_ctx k bot ctx a
  · simp [hv, sendErr]

theorem eoInitialBranch_ctx (resp : EditResp) (files : Option (List File))
    (c : Ctx) (reqs : List HttpRequest) :
    (eoInitialBranch resp files c reqs).ctx.deferred = false ∧
    (eoInitialBranch resp files c reqs).ctx.responded = true := by
  unfold eoInitialBranch
  cases hd : c.deferred <;> simp [hd]

theorem editOriginTail_ctx (bot : Bot) (ctx : Ctx) (a : EditOriginArgs) :
    ((ComponentContext.editOriginTail bot ctx a).ctx.deferred = false ∧
      (ComponentContext.editOriginTail bot ctx a).ctx.responded = true) ∨
    (ComponentContext.editOriginTail bot ctx a).ctx = ctx := by
  unfold ComponentContext.editOriginTail
  cases hfc : (a.files.isSome && a.file.isSome)
  · cases hr : ctx.responded
    · cases hd : ctx.deferred
      · cases hf : truthyList (eoNormFiles a)
        · simp [hfc, hr, hd, hf, eoInitialBranch_ctx]
        · obtain ⟨hres, hlen, hdef, hresp⟩ := ccDefer_editOrigin_fresh ctx hd hr
          simp [hfc, hr, hd, hf, hres, eoInitialBranch_ctx]
      · simp [hfc, hr, hd, eoInitialBranch_ctx]
    · simp [hfc, hr]
  · simp [hfc]

theorem edit_origin_ctx_cases (bot : Bot) (ctx : Ctx) (a : EditOriginArgs) :
    ((ComponentContext.edit_origin bot ctx a).ctx.deferred = false ∧
      (ComponentContext.edit_origin bot ctx a).ctx.responded = true) ∨
    (ComponentContext.edit_origin bot ctx a).ctx = ctx := by
  unfold ComponentContext.edit_origin
  rcases he : a.embeds with _ | el
  · exact editOriginTail_ctx bot ctx a
  · rcases el with _ | l
    · simp
    · cases hlen : decide (l.length > 10)
      · cases hemb : a.embed.isSome
        · simp only [hlen, hemb, Bool.false_eq_true, if_false]
          exact editOriginTail_ctx bot ctx a
        · simp [hlen, hemb]
      · simp [hlen]

theorem stepCtx_preserves (ctx : Ctx) (op : Op)
    (h : (ctx.deferred && ctx.responded) = false) :
    ((stepCtx ctx op).deferred && (stepCtx ctx op).responded) = false := by
  cases op with
  | deferSlash hid =>
    rcases icDefer_ctx_cases ctx hid with hc | ⟨h1, h2⟩
    · simpa [stepCtx, hc] using h
    · simp [stepCtx, h1, h2]
  | deferComponent hid e i =>
    rcases ccDefer_ctx_cases ctx hid e i with hc | ⟨h1, h2⟩ | ⟨h1, h2⟩
    · simpa [stepCtx, hc] using h
    · simp [stepCtx, h1, h2]
    · simp [stepCtx, h1, h2]
  | deferMenu hid e i =>
    rcases ccDefer_ctx_cases ctx hid e i with hc | ⟨h1, h2⟩ | ⟨h1, h2⟩
    · simpa [stepCtx, MenuContext.defer, hc] using h
    · simp [stepCtx, MenuContext.defer, h1, h2]
    · simp [stepCtx, MenuContext.defer, h1, h2]
  | sendOp k bot a =>
    rcases send_ctx_cases k bot ctx a with ⟨h1, h2⟩ | hc
    · simp [stepCtx, h1, h2]
    · simpa [stepCtx, hc] using h
  | editOriginOp bot a =>
    rcases edit_origin_ctx_cases bot ctx a with ⟨h1, h2⟩ | hc
    · simp [stepCtx, h1, h2]
    · simpa [stepCtx, hc] using h

/-- C9: along every sequence of `defer`, `send` and `edit_origin` calls
starting from a freshly constructed context, the `deferred` and `responded`
flags are never both true. -/
theorem flags_never_both_true (ops : List Op) :
    ((runOps ops).deferred && (runOps ops).responded) = false := by
  unfold runOps
  have key : ∀ c : Ctx, (c.deferred && c.responded) = false →
      ((ops.foldl stepCtx c).deferred && (ops.foldl stepCtx c).responded) = false := by
    induction ops with
    | nil => intro c h; simpa using h
    | cons o t ih =>
      intro c h
      exact ih (stepCtx c o) (stepCtx_preserves c o h)
  exact key initialCtx rfl

/-! ## C10 -/

theorem dispatchDefer_message (k : CtxKind) (ctx : Ctx) (h : Bool) :
    (dispatchDefer k ctx h).ctx.message = ctx.message := by
  cases k <;> cases h <;> cases hd : ctx.deferred <;> cases hr : ctx.responded <;>
    simp [dispatchDefer, InteractionContext.defer, ComponentContext.defer,
      MenuContext.defer, hd, hr]

theorem sendInitialBranch_hidden (a : SendArgs) (base : SendBase)
    (files : Option (List File)) (c : Ctx) (reqs : List HttpRequest)
    (hh : a.hidden = true) :
    (sendInitialBranch a base files c reqs).tasks = [] ∧
    (sendInitialBranch a base files c reqs).ctx.message = c.message ∧
    SendOutcome.returnsRaw (sendInitialBranch a base files c reqs) = true := by
  unfold sendInitialBranch
  cases hd : c.deferred <;>
    simp [hd, hh, sendFinish_hidden, SendOutcome.returnsRaw]

theorem sendStateMachine_hidden (k : CtxKind) (bot : Bot) (ctx : Ctx)
    (a : SendArgs) (hh : a.hidden = true) :
    (sendStateMachine k bot ctx a).tasks = [] ∧
    (sendStateMachine k bot ctx a).ctx.message = ctx.message ∧
    SendOutcome.returnsRaw (sendStateMachine k bot ctx a) = true := by
  unfold sendStateMachine
  cases hr : ctx.responded
  · cases hd : ctx.deferred
    · cases hf : truthyList (normFiles a)
      · simp [hr, hd, hf, hh, sendInitialBranch_hidden]
      · obtain ⟨hres, hlen, hdef, hresp⟩ := dispatchDefer_fresh k ctx true hd hr
        have hmsg := dispatchDefer_message k ctx true
        simp [hr, hd, hf, hres, hh, sendInitialBranch_hidden, hmsg]
    · simp [hr, hd, hh, sendInitialBranch_hidden]
  · simp [hr, hh, sendFinish_hidden, SendOutcome.returnsRaw]

theorem sendFinish_visible (a : SendArgs) (c : Ctx) (reqs : List HttpRequest)
    (w : List String) (r : RespData) (hh : a.hidden = false) :
    SendOutcome.returnsMessage (sendFinish a c reqs w r true) = true ∧
    ((sendFinish a c reqs w r true).ctx.message).isSome = true := by
  unfold sendFinish
  simp [hh, SendOutcome.returnsMessage]

theorem sendInitialBranch_visible (a : SendArgs) (base : SendBase)
    (files : Option (List File)) (c : Ctx) (reqs : List HttpRequest)
    (hh : a.hidden = false) :
    SendOutcome.returnsMessage (sendInitialBranch a base files c reqs) = true ∧
    ((sendInitialBranch a base files c reqs).ctx.message).isSome = true := by
  unfold sendInitialBranch
  cases hd : c.deferred <;> simp [hd, hh, sendFinish_visible]

theorem sendStateMachine_visible (k : CtxKind) (bot : Bot) (ctx : Ctx)
    (a : SendArgs) (hh : a.hidden = false) (hr : ctx.responded = false) :
    SendOutcome.returnsMessage (sendStateMachine k bot ctx a) = true ∧
    ((sendStateMachine k bot ctx a).ctx.message).isSome = true := by
  unfold sendStateMachine
  cases hd : ctx.deferred
  · cases hf : truthyList (normFiles a)
    · simp [hr, hd, hf, hh, sendInitialBranch_visible]
    · obtain ⟨hres, hlen, hdef, hresp⟩ := dispatchDefer_fresh k ctx false hd hr
      simp [hr, hd, hf, hres, hh, sendInitialBranch_visible]
  · simp [hr, hd, hh, sendInitialBranch_visible]

/-- C10: a hidden `send` never schedules a delayed-delete task and never
touches the context's `message` attribute, and whenever it returns normally
it returns the raw response dict rather than a `SlashMessage`; conversely,
a successful non-hidden initial `send` returns a constructed `SlashMessage`
and assigns the `message` attribute. -/
theorem send_hidden_raw (k : CtxKind) (bot : Bot) (ctx : Ctx) (a : SendArgs) :
    (a.hidden = true →
      (InteractionContext.send k bot ctx a).tasks = [] ∧
      (InteractionContext.send k bot ctx a).ctx.message = ctx.message ∧
      (Res.isOk (InteractionContext.send k bot ctx a).result = true →
        SendOutcome.returnsRaw (InteractionContext.send k bot ctx a) = true)) ∧
    (a.hidden = false → ctx.responded = false →
      Res.isOk (InteractionContext.send k bot ctx a).result = true →
      SendOutcome.returnsMessage (InteractionContext.send k bot ctx a) = true ∧
      ((InteractionContext.send k bot ctx a).ctx.message).isSome = true) := by
  constructor
  · intro hh
    unfold InteractionContext.send
    cases hv : sendValidationError a
    · simp only [hv]
      obtain ⟨t, m, r⟩ := sendStateMachine_hidden k bot ctx a hh
      exact ⟨t, m, fun _ => r⟩
    · simp [hv, sendErr, Res.isOk]
  · intro hh hr hk
    unfold InteractionContext.send at hk ⊢
    cases hv : sendValidationError a
    · simp only [hv]
      exact sendStateMachine_visible k bot ctx a hh hr
    · rw [hv] at hk
      simp [sendErr, Res.isOk] at hk

/-- Witness for C10: `send(hidden=True)` and plain `send()` on a fresh
slash context. -/
theorem send_hidden_raw_witness :
    (InteractionContext.send CtxKind.slash bot0 initialCtx hiddenArgs0).tasks = [] ∧
    (InteractionContext.send CtxKind.slash bot0 initialCtx hiddenArgs0).ctx.message =
      initialCtx.message ∧
    SendOutcome.returnsRaw (InteractionContext.send CtxKind.slash bot0 initialCtx hiddenArgs0) = true ∧
    SendOutcome.returnsMessage (InteractionContext.send CtxKind.slash bot0 initialCtx sendArgs0) = true :=
  ⟨((send_hidden_raw CtxKind.slash bot0 initialCtx hiddenArgs0).1 rfl).1,
    ((send_hidden_raw CtxKind.slash bot0 initialCtx hiddenArgs0).1 rfl).2.1,
    ((send_hidden_raw CtxKind.slash bot0 initialCtx hiddenArgs0).1 rfl).2.2 (by decide),
    ((send_hidden_raw CtxKind.slash bot0 initialCtx sendArgs0).2 rfl rfl (by decide)).1⟩
